import Mathlib

/-!
Verification of the Location-Restricted Attendance Authorization & Audit
Subsystem of the TimeTrack repository.

The authoritative code is the SQL migration
`supabase/migrations/20250210134118_patient_lantern.sql`: table definitions
with their constraints, row-level-security (RLS) policies, the
`check_location_restrictions` function, and the `audit_log_changes` trigger
function attached AFTER INSERT/UPDATE/DELETE to the five protected tables
(`profiles`, `time_entries`, `schedules`, `ip_whitelist`, `geo_fences`).

Embedding conventions:
* UUIDs are modelled as natural numbers drawn from a fresh-id counter
  (`DB.nextId`), standing in for `gen_random_uuid()`; only `profiles.id`
  is caller-supplied (it references `auth.users`), so only there is a
  primary-key uniqueness check modelled.
* SQL `DECIMAL` coordinates are modelled as rationals (`ℚ`); `INTEGER` as `Int`.
* Nullable columns and nullable function arguments are `Option`-typed.
* A SQL statement is a function `DB → Except DbError DB`; the transaction
  semantics is that an error aborts the whole statement, so the caller's
  state is unchanged (`commit` below makes the rollback explicit).
* RLS semantics follows PostgreSQL: for INSERT the applicable `WITH CHECK`
  expression is evaluated and a violation raises an error; for UPDATE and
  DELETE the applicable `USING` expression filters the visible rows, so a
  non-matching (or absent) policy makes the statement a successful no-op
  that touches zero rows and fires no trigger. Policy subqueries are
  evaluated against the pre-statement state.
* `TIMESTAMPTZ` bookkeeping columns (`created_at`, `updated_at`,
  `timestamp`, `device_info` being JSONB) and foreign-key checks are not
  modelled: no claim under verification depends on them.
* The audit trigger's `INSERT INTO audit_logs` is `SECURITY DEFINER`, which
  bypasses the (write-path-free) RLS of `audit_logs`; its two failure modes
  are modelled: `current_setting('request.headers')` raising when the
  setting is absent (the one-argument form has no `missing_ok`), and the
  underlying store rejecting the INSERT (`ReqCtx.auditStoreFails`).
-/

abbrev Uuid := Nat

/-- The column `role TEXT CHECK (role IN ('admin', 'employee'))` — the CHECK constraint
makes the column a closed two-value set, modelled as an inductive type. -/
inductive Role
  | admin
  | employee
deriving DecidableEq, Repr

/-- The column `entry_type TEXT CHECK (entry_type IN ('clock_in', 'clock_out'))`. -/
inductive EntryType
  | clock_in
  | clock_out
deriving DecidableEq, Repr

/-- A row of `profiles` (id comes from `auth.users`, supplied by the caller). -/
structure ProfileRow where
  id : Uuid
  email : String
  full_name : Option String
  role : Role
  employee_id : Option String
  department : Option String
deriving DecidableEq, Repr

/-- A row of `time_entries`. -/
structure TimeEntryRow where
  id : Uuid
  user_id : Uuid
  entry_type : EntryType
  ip_address : Option String
  device_info : Option String
  latitude : Option ℚ
  longitude : Option ℚ
  notes : Option String
deriving DecidableEq, Repr

/-- A row of `schedules`. -/
structure ScheduleRow where
  id : Uuid
  user_id : Uuid
  start_time : Nat
  end_time : Nat
  created_by : Option Uuid
deriving DecidableEq, Repr

/-- A row of `ip_whitelist` (`ip_address TEXT NOT NULL UNIQUE`). -/
structure IpWhitelistRow where
  id : Uuid
  ip_address : String
  description : Option String
  created_by : Option Uuid
deriving DecidableEq, Repr

/-- A row of `geo_fences`. Note: `radius INTEGER NOT NULL` carries no CHECK
constraint in the schema, so any integer — including non-positive ones — is
storable. -/
structure GeoFenceRow where
  id : Uuid
  name : String
  latitude : ℚ
  longitude : ℚ
  radius : Int
  created_by : Option Uuid
deriving DecidableEq, Repr

/-- Result of `row_to_json(...)` applied to a row of one of the five audited tables. -/
inductive RowData
  | profile (r : ProfileRow)
  | timeEntry (r : TimeEntryRow)
  | schedule (r : ScheduleRow)
  | ipWhitelist (r : IpWhitelistRow)
  | geoFence (r : GeoFenceRow)
deriving DecidableEq, Repr

/-- The primary key of an audited row — used for `COALESCE(NEW.id, OLD.id)`. -/
def RowData.rowId : RowData → Uuid
  | .profile r => r.id
  | .timeEntry r => r.id
  | .schedule r => r.id
  | .ipWhitelist r => r.id
  | .geoFence r => r.id

/-- A row of `audit_logs`. -/
structure AuditLogRow where
  id : Uuid
  user_id : Option Uuid
  action : String
  table_name : Option String
  record_id : Option Uuid
  old_data : Option RowData
  new_data : Option RowData
  ip_address : Option String
deriving DecidableEq, Repr

/-- The database state: the six tables plus the fresh-id counter standing in
for `gen_random_uuid()`. -/
structure DB where
  profiles : List ProfileRow
  time_entries : List TimeEntryRow
  schedules : List ScheduleRow
  audit_logs : List AuditLogRow
  ip_whitelist : List IpWhitelistRow
  geo_fences : List GeoFenceRow
  nextId : Nat
deriving DecidableEq, Repr

def DB.initial : DB := ⟨[], [], [], [], [], [], 0⟩

/-- Embeds the geo-fence membership test of `check_location_restrictions`:
`point(longitude, latitude) <@ circle(point(p_longitude, p_latitude), radius)`.
PostgreSQL evaluates `point <@ circle` as: Euclidean distance from the circle
center to the point is at most the radius (inclusive), over the raw degree
coordinates. `dist ≤ radius` is expressed square-root-free over `ℚ` as
`0 ≤ radius ∧ dist² ≤ radius²`, which is equivalent because `dist ≥ 0`.
Both `point` and `<@` are strict in SQL: a NULL latitude or longitude makes
the whole predicate NULL, which the surrounding `WHERE` treats as no match —
hence the `Option` arguments and the catch-all `false` branch. -/
def pointInCircle (x y : ℚ) (cx cy : Option ℚ) (radius : Int) : Bool :=
  match cx, cy with
  | some cx, some cy =>
      decide (0 ≤ radius) &&
      decide ((x - cx) ^ 2 + (y - cy) ^ 2 ≤ ((radius : ℚ)) ^ 2)
  | _, _ => false

/-- Embeds the SQL function `check_location_restrictions(p_latitude,
p_longitude, p_ip_address)`:
`v_ip_allowed` is `EXISTS (SELECT 1 FROM ip_whitelist WHERE ip_address = p_ip_address)`,
`v_geo_allowed` is `EXISTS (SELECT 1 FROM geo_fences WHERE point(longitude, latitude) <@ circle(point(p_longitude, p_latitude), radius))`,
and the result is `v_ip_allowed AND v_geo_allowed`. -/
def check_location_restrictions (db : DB) (p_latitude p_longitude : Option ℚ)
    (p_ip_address : String) : Bool :=
  let v_ip_allowed :=
    db.ip_whitelist.any (fun e => e.ip_address = p_ip_address)
  let v_geo_allowed :=
    db.geo_fences.any
      (fun f => pointInCircle f.longitude f.latitude p_longitude p_latitude f.radius)
  v_ip_allowed && v_geo_allowed

/-- Spec-side statement of planar inclusive fence containment, written from the
spec's words: the point `(la, lo)` falls within the fence's radius of its
center in planar degree coordinates, i.e. the Euclidean degree-distance from
the center to the point is at most the radius. Stated square-root-free over
`ℚ`: for `dist ≥ 0`, `dist ≤ r ↔ 0 ≤ r ∧ dist² ≤ r²`. -/
def FenceContains (f : GeoFenceRow) (la lo : ℚ) : Prop :=
  0 ≤ f.radius ∧ (lo - f.longitude) ^ 2 + (la - f.latitude) ^ 2 ≤ ((f.radius : ℚ)) ^ 2

instance (f : GeoFenceRow) (la lo : ℚ) : Decidable (FenceContains f la lo) := by
  unfold FenceContains
  infer_instance

/-- The per-request context: `auth.uid()` (NULL for system actions), the
`request.headers` custom setting (absent outside API requests), and a flag
modelling the underlying store rejecting the audit INSERT itself. -/
structure ReqCtx where
  uid : Option Uuid
  requestHeaders : Option (List (String × String))
  auditStoreFails : Bool
deriving DecidableEq, Repr

/-- The error outcomes a statement can surface. `accessDenied` is PostgreSQL's
"new row violates row-level security policy"; `uniquenessViolation` a UNIQUE
or PRIMARY KEY violation; `unrecognizedConfigurationParameter` the error the
one-argument `current_setting` raises on an absent setting;
`persistenceFailure` the store failing the audit INSERT. -/
inductive DbError
  | accessDenied
  | uniquenessViolation
  | unrecognizedConfigurationParameter
  | persistenceFailure
deriving DecidableEq, Repr

/-- Embeds `current_setting('request.headers')` — the one-argument form raises when
the custom setting is absent. -/
def currentSettingRequestHeaders (ctx : ReqCtx) :
    Except DbError (List (String × String)) :=
  match ctx.requestHeaders with
  | none => Except.error DbError.unrecognizedConfigurationParameter
  | some hs => Except.ok hs

/-- The json `->>` operator on the parsed headers object: the value of the
named key, or NULL when the key is missing. -/
def headerValue (hs : List (String × String)) (key : String) : Option String :=
  (hs.find? (fun p => p.1 = key)).map (fun p => p.2)

/-- The tuple inserted into `audit_logs` by `audit_log_changes`, with `TG_OP`,
`TG_TABLE_NAME`, `OLD`/`NEW` and the request context substituted in:
`auth.uid()`, `TG_OP`, `TG_TABLE_NAME`, `COALESCE(NEW.id, OLD.id)`,
`CASE WHEN TG_OP = 'DELETE' THEN row_to_json(OLD) ELSE NULL END`,
`CASE WHEN TG_OP IN ('INSERT', 'UPDATE') THEN row_to_json(NEW) ELSE NULL END`,
and `... ->> 'x-forwarded-for'`. -/
def auditRecord (ctx : ReqCtx) (hs : List (String × String))
    (tg_op tg_table : String) (oldRow newRow : Option RowData)
    (id : Uuid) : AuditLogRow where
  id := id
  user_id := ctx.uid
  action := tg_op
  table_name := some tg_table
  record_id :=
    match newRow with
    | some r => some r.rowId
    | none => oldRow.map RowData.rowId
  old_data := if tg_op = "DELETE" then oldRow else none
  new_data := if tg_op = "INSERT" ∨ tg_op = "UPDATE" then newRow else none
  ip_address := headerValue hs "x-forwarded-for"

/-- Embeds the trigger function `audit_log_changes()`: evaluates the VALUES
tuple (which raises if `current_setting('request.headers')` is absent) and
inserts one row into `audit_logs`; the insert itself fails when the store
does (`auditStoreFails`). Any error here aborts the enclosing statement. -/
def audit_log_changes (ctx : ReqCtx) (tg_op tg_table : String)
    (oldRow newRow : Option RowData) (db : DB) : Except DbError DB :=
  match currentSettingRequestHeaders ctx with
  | Except.error e => Except.error e
  | Except.ok hs =>
      if ctx.auditStoreFails then
        Except.error DbError.persistenceFailure
      else
        Except.ok { db with
          audit_logs :=
            db.audit_logs ++ [auditRecord ctx hs tg_op tg_table oldRow newRow db.nextId]
          nextId := db.nextId + 1 }

/-- The admin-check subquery shared by the policies:
`EXISTS (SELECT 1 FROM profiles WHERE id = auth.uid() AND role = 'admin')`. -/
def isAdmin (db : DB) (uid : Option Uuid) : Bool :=
  db.profiles.any (fun p => decide (some p.id = uid) && decide (p.role = Role.admin))

/-- The mutating SQL statements a client can issue against the five protected
tables (single-row statements keyed by primary key, as the application issues
them). `update`/`delete` constructors exist even for `time_entries` and
`profiles` deletion, where no policy grants them: RLS then filters every row
and the statement is a no-op. -/
inductive Mutation
  | insertProfile (id : Uuid) (email : String) (full_name : Option String)
      (role : Role) (employee_id : Option String) (department : Option String)
  | updateProfile (id : Uuid) (email : String) (full_name : Option String)
      (role : Role) (employee_id : Option String) (department : Option String)
  | deleteProfile (id : Uuid)
  | insertTimeEntry (user_id : Uuid) (entry_type : EntryType)
      (ip_address : Option String) (device_info : Option String)
      (latitude longitude : Option ℚ) (notes : Option String)
  | updateTimeEntry (id : Uuid)
  | deleteTimeEntry (id : Uuid)
  | insertSchedule (user_id : Uuid) (start_time end_time : Nat)
  | updateSchedule (id : Uuid) (start_time end_time : Nat)
  | deleteSchedule (id : Uuid)
  | insertIpWhitelist (ip_address : String) (description : Option String)
  | updateIpWhitelist (id : Uuid) (ip_address : String) (description : Option String)
  | deleteIpWhitelist (id : Uuid)
  | insertGeoFence (name : String) (latitude longitude : ℚ) (radius : Int)
  | updateGeoFence (id : Uuid) (name : String) (latitude longitude : ℚ) (radius : Int)
  | deleteGeoFence (id : Uuid)
deriving DecidableEq, Repr

/-- The `TG_OP` of the trigger a mutation would fire. -/
def Mutation.tgOp : Mutation → String
  | .insertProfile .. | .insertTimeEntry .. | .insertSchedule ..
  | .insertIpWhitelist .. | .insertGeoFence .. => "INSERT"
  | .updateProfile .. | .updateTimeEntry .. | .updateSchedule ..
  | .updateIpWhitelist .. | .updateGeoFence .. => "UPDATE"
  | .deleteProfile .. | .deleteTimeEntry .. | .deleteSchedule ..
  | .deleteIpWhitelist .. | .deleteGeoFence .. => "DELETE"

/-- The `TG_TABLE_NAME` of the trigger a mutation would fire. -/
def Mutation.tableName : Mutation → String
  | .insertProfile .. | .updateProfile .. | .deleteProfile .. => "profiles"
  | .insertTimeEntry .. | .updateTimeEntry .. | .deleteTimeEntry .. => "time_entries"
  | .insertSchedule .. | .updateSchedule .. | .deleteSchedule .. => "schedules"
  | .insertIpWhitelist .. | .updateIpWhitelist .. | .deleteIpWhitelist .. => "ip_whitelist"
  | .insertGeoFence .. | .updateGeoFence .. | .deleteGeoFence .. => "geo_fences"

/-- Outcome of the row-level part of a statement, before the AFTER trigger:
the statement is rejected outright (`denied`), matches no row (`noop` — the
trigger does not fire), or changes one row (`changed`, carrying `TG_OP`,
`TG_TABLE_NAME`, `OLD`, `NEW` and the state with the row change applied). -/
inductive StepResult
  | denied (e : DbError)
  | noop
  | changed (tg_op tg_table : String) (oldRow newRow : Option RowData) (db1 : DB)
deriving DecidableEq, Repr

/-- The row-level semantics of each statement under the RLS policies and
constraints of the migration:
* `profiles`: admins may INSERT (`WITH CHECK` admin subquery) and UPDATE
  (`USING` admin subquery); no DELETE policy. PK and `employee_id UNIQUE`.
* `time_entries`: INSERT `WITH CHECK (auth.uid() = user_id)` — the only
  write policy; no UPDATE or DELETE policy.
* `schedules`, `ip_whitelist`, `geo_fences`: `FOR ALL USING` admin subquery
  (the `WITH CHECK` side defaults to the `USING` expression).
* `ip_whitelist.ip_address` is UNIQUE, checked on INSERT and UPDATE.
* `geo_fences.radius` has no constraint beyond NOT NULL. -/
def mutationStep (db : DB) (ctx : ReqCtx) : Mutation → StepResult
  | .insertProfile pid email fn role eid dept =>
      if isAdmin db ctx.uid then
        if db.profiles.any (fun p => decide (p.id = pid)) then
          StepResult.denied DbError.uniquenessViolation
        else if eid.isSome && db.profiles.any (fun p => decide (p.employee_id = eid)) then
          StepResult.denied DbError.uniquenessViolation
        else
          let row : ProfileRow := ⟨pid, email, fn, role, eid, dept⟩
          StepResult.changed "INSERT" "profiles" none (some (RowData.profile row))
            { db with profiles := db.profiles ++ [row] }
      else StepResult.denied DbError.accessDenied
  | .updateProfile pid email fn role eid dept =>
      if isAdmin db ctx.uid then
        match db.profiles.find? (fun p => decide (p.id = pid)) with
        | none => StepResult.noop
        | some oldR =>
            if eid.isSome &&
                db.profiles.any (fun p => decide (p.id ≠ pid) && decide (p.employee_id = eid)) then
              StepResult.denied DbError.uniquenessViolation
            else
              let newR : ProfileRow :=
                { oldR with email := email, full_name := fn, role := role,
                            employee_id := eid, department := dept }
              StepResult.changed "UPDATE" "profiles"
                (some (RowData.profile oldR)) (some (RowData.profile newR))
                { db with profiles :=
                    db.profiles.map (fun p => if p.id = pid then newR else p) }
      else StepResult.noop
  | .deleteProfile _ => StepResult.noop
  | .insertTimeEntry user_id et ip di la lo nt =>
      if ctx.uid = some user_id then
        let row : TimeEntryRow := ⟨db.nextId, user_id, et, ip, di, la, lo, nt⟩
        StepResult.changed "INSERT" "time_entries" none (some (RowData.timeEntry row))
          { db with time_entries := db.time_entries ++ [row], nextId := db.nextId + 1 }
      else StepResult.denied DbError.accessDenied
  | .updateTimeEntry _ => StepResult.noop
  | .deleteTimeEntry _ => StepResult.noop
  | .insertSchedule user_id st en =>
      if isAdmin db ctx.uid then
        let row : ScheduleRow := ⟨db.nextId, user_id, st, en, ctx.uid⟩
        StepResult.changed "INSERT" "schedules" none (some (RowData.schedule row))
          { db with schedules := db.schedules ++ [row], nextId := db.nextId + 1 }
      else StepResult.denied DbError.accessDenied
  | .updateSchedule sid st en =>
      if isAdmin db ctx.uid then
        match db.schedules.find? (fun s => decide (s.id = sid)) with
        | none => StepResult.noop
        | some oldR =>
            let newR : ScheduleRow := { oldR with start_time := st, end_time := en }
            StepResult.changed "UPDATE" "schedules"
              (some (RowData.schedule oldR)) (some (RowData.schedule newR))
              { db with schedules :=
                  db.schedules.map (fun s => if s.id = sid then newR else s) }
      else StepResult.noop
  | .deleteSchedule sid =>
      if isAdmin db ctx.uid then
        match db.schedules.find? (fun s => decide (s.id = sid)) with
        | none => StepResult.noop
        | some oldR =>
            StepResult.changed "DELETE" "schedules" (some (RowData.schedule oldR)) none
              { db with schedules := db.schedules.filter (fun s => decide (s.id ≠ sid)) }
      else StepResult.noop
  | .insertIpWhitelist ip desc =>
      if isAdmin db ctx.uid then
        if db.ip_whitelist.any (fun e => decide (e.ip_address = ip)) then
          StepResult.denied DbError.uniquenessViolation
        else
          let row : IpWhitelistRow := ⟨db.nextId, ip, desc, ctx.uid⟩
          StepResult.changed "INSERT" "ip_whitelist" none (some (RowData.ipWhitelist row))
            { db with ip_whitelist := db.ip_whitelist ++ [row], nextId := db.nextId + 1 }
      else StepResult.denied DbError.accessDenied
  | .updateIpWhitelist eid ip desc =>
      if isAdmin db ctx.uid then
        match db.ip_whitelist.find? (fun e => decide (e.id = eid)) with
        | none => StepResult.noop
        | some oldR =>
            if db.ip_whitelist.any
                (fun e => decide (e.id ≠ eid) && decide (e.ip_address = ip)) then
              StepResult.denied DbError.uniquenessViolation
            else
              let newR : IpWhitelistRow := { oldR with ip_address := ip, description := desc }
              StepResult.changed "UPDATE" "ip_whitelist"
                (some (RowData.ipWhitelist oldR)) (some (RowData.ipWhitelist newR))
                { db with ip_whitelist :=
                    db.ip_whitelist.map (fun e => if e.id = eid then newR else e) }
      else StepResult.noop
  | .deleteIpWhitelist eid =>
      if isAdmin db ctx.uid then
        match db.ip_whitelist.find? (fun e => decide (e.id = eid)) with
        | none => StepResult.noop
        | some oldR =>
            StepResult.changed "DELETE" "ip_whitelist" (some (RowData.ipWhitelist oldR)) none
              { db with ip_whitelist :=
                  db.ip_whitelist.filter (fun e => decide (e.id ≠ eid)) }
      else StepResult.noop
  | .insertGeoFence name la lo r =>
      if isAdmin db ctx.uid then
        let row : GeoFenceRow := ⟨db.nextId, name, la, lo, r, ctx.uid⟩
        StepResult.changed "INSERT" "geo_fences" none (some (RowData.geoFence row))
          { db with geo_fences := db.geo_fences ++ [row], nextId := db.nextId + 1 }
      else StepResult.denied DbError.accessDenied
  | .updateGeoFence gid name la lo r =>
      if isAdmin db ctx.uid then
        match db.geo_fences.find? (fun g => decide (g.id = gid)) with
        | none => StepResult.noop
        | some oldR =>
            let newR : GeoFenceRow :=
              { oldR with name := name, latitude := la, longitude := lo, radius := r }
            StepResult.changed "UPDATE" "geo_fences"
              (some (RowData.geoFence oldR)) (some (RowData.geoFence newR))
              { db with geo_fences :=
                  db.geo_fences.map (fun g => if g.id = gid then newR else g) }
      else StepResult.noop
  | .deleteGeoFence gid =>
      if isAdmin db ctx.uid then
        match db.geo_fences.find? (fun g => decide (g.id = gid)) with
        | none => StepResult.noop
        | some oldR =>
            StepResult.changed "DELETE" "geo_fences" (some (RowData.geoFence oldR)) none
              { db with geo_fences := db.geo_fences.filter (fun g => decide (g.id ≠ gid)) }
      else StepResult.noop

/-- A whole mutating statement: the row-level part, then — because each of the
five tables carries an `AFTER INSERT OR UPDATE OR DELETE ... FOR EACH ROW
EXECUTE FUNCTION audit_log_changes()` trigger — the audit write, inside the
same transaction, whose failure aborts the statement. -/
def applyMutation (db : DB) (ctx : ReqCtx) (m : Mutation) : Except DbError DB :=
  match mutationStep db ctx m with
  | StepResult.denied e => Except.error e
  | StepResult.noop => Except.ok db
  | StepResult.changed op tbl oldR newR db1 =>
      audit_log_changes ctx op tbl oldR newR db1

/-- Transaction boundary: an erroring statement leaves the database unchanged. -/
def commit (db : DB) (r : Except DbError DB) : DB :=
  match r with
  | Except.ok dbNew => dbNew
  | Except.error _ => db

/-- Membership of an audited row snapshot in the corresponding table. -/
def RowData.inDB : RowData → DB → Prop
  | .profile r, db => r ∈ db.profiles
  | .timeEntry r, db => r ∈ db.time_entries
  | .schedule r, db => r ∈ db.schedules
  | .ipWhitelist r, db => r ∈ db.ip_whitelist
  | .geoFence r, db => r ∈ db.geo_fences

/-- Errors of the Attendance Event Recorder: the authorizer verdict surfaced
as LocationDenied, or an underlying statement error. -/
inductive RecordError
  | locationDenied
  | dbError (e : DbError)
deriving DecidableEq, Repr

/-- Modelled from the spec: the Attendance Event Recorder (`record_event`,
spec §4.3) — the clock-in/clock-out handler page is part of this repository
but absent from src/ (only the routes referencing it are present), so its
control flow is taken from the spec's words: the entry type is valid by
construction, the Location Authorizer (`check_location_restrictions`, which
IS source code) is consulted first and a false verdict fails the call with
LocationDenied before any write; otherwise the INSERT into `time_entries`
(RLS check, row write and audit trigger — all source code) is executed. -/
def record_event (db : DB) (ctx : ReqCtx) (user_id : Uuid) (et : EntryType)
    (ip : String) (di : Option String) (la lo : Option ℚ) (nt : Option String) :
    Except RecordError DB :=
  if check_location_restrictions db la lo ip then
    match applyMutation db ctx (Mutation.insertTimeEntry user_id et (some ip) di la lo nt) with
    | Except.ok dbNew => Except.ok dbNew
    | Except.error e => Except.error (RecordError.dbError e)
  else
    Except.error RecordError.locationDenied

/-- Transaction boundary for `record_event`. -/
def commitR (db : DB) (r : Except RecordError DB) : DB :=
  match r with
  | Except.ok dbNew => dbNew
  | Except.error _ => db

/-- Running a sequence of statements, each in its own transaction. -/
def runOps (db : DB) (ops : List (ReqCtx × Mutation)) : DB :=
  ops.foldl (fun d cm => commit d (applyMutation d cm.1 cm.2)) db

/-- A state reachable from `db0` by client statements. Reachability is
parametrized by a seed state because principal provisioning ("created on
first authentication", spec §3) happens through the auth backend outside the
client RLS paths modelled here; `DB.initial` is one valid seed. -/
def ReachableFrom (db0 db : DB) : Prop :=
  ∃ ops, runOps db0 ops = db

/-- IP addresses stored in the whitelist are pairwise distinct. -/
def IpsDistinct (db : DB) : Prop :=
  db.ip_whitelist.Pairwise (fun a b => a.ip_address ≠ b.ip_address)

/-- Inductive invariant for the whitelist: ids are fresh below the counter,
pairwise distinct, and the ip addresses pairwise distinct. -/
def IpwInv (db : DB) : Prop :=
  (∀ r ∈ db.ip_whitelist, r.id < db.nextId) ∧
  db.ip_whitelist.Pairwise (fun a b => a.id ≠ b.id) ∧
  IpsDistinct db

/-- Concrete fixture: an admin principal. -/
def adminProfile : ProfileRow := ⟨1, "admin@example.com", none, Role.admin, none, none⟩

/-- Concrete fixture: a whitelisted ip. -/
def ipEntry : IpWhitelistRow := ⟨2, "1.2.3.4", none, some 1⟩

/-- Concrete fixture: a fence of radius 500 centered at (10, 10). -/
def hqFence : GeoFenceRow := ⟨3, "hq", 10, 10, 500, some 1⟩

/-- Concrete fixture: a provisioned database with one admin, one whitelisted
ip and one fence. -/
def exampleDB : DB := ⟨[adminProfile], [], [], [], [ipEntry], [hqFence], 4⟩

/-- Concrete fixture: a request by the admin with headers present (but no
x-forwarded-for entry) and a healthy store. -/
def adminCtx : ReqCtx := ⟨some 1, some [], false⟩

/-- Concrete fixture: same request context, but the store rejects the audit
INSERT. -/
def failCtx : ReqCtx := ⟨some 1, some [], true⟩

/-- Concrete fixture: same request context, but the `request.headers` setting
is absent (as for non-API writes). -/
def noHeadersCtx : ReqCtx := ⟨some 1, none, false⟩

/-- Concrete fixture: the time entry created by the successful clock-in of the
C3 witness scenario. -/
def clockRow : TimeEntryRow := ⟨4, 1, EntryType.clock_in, some "1.2.3.4", none, some 10, some 10, none⟩

/-- Concrete fixture: the audit row of that clock-in. -/
def clockAudit : AuditLogRow :=
  ⟨5, some 1, "INSERT", some "time_entries", some 4, none, some (RowData.timeEntry clockRow), none⟩

/-- Concrete fixture: `exampleDB` after the witnessed clock-in. -/
def dbAfterClock : DB := ⟨[adminProfile], [clockRow], [], [clockAudit], [ipEntry], [hqFence], 6⟩

/-- Concrete fixture: the whitelist row after the C5 counterexample UPDATE. -/
def ipEntryUpd : IpWhitelistRow := ⟨2, "5.6.7.8", none, some 1⟩

/-- Concrete fixture: the audit row of the C5 counterexample UPDATE — note its
`old_data` is `none`. -/
def updAudit : AuditLogRow :=
  ⟨4, some 1, "UPDATE", some "ip_whitelist", some 2, none, some (RowData.ipWhitelist ipEntryUpd), none⟩

/-- Concrete fixture: `exampleDB` after the C5 counterexample UPDATE. -/
def dbAfterUpd : DB := ⟨[adminProfile], [], [], [updAudit], [ipEntryUpd], [hqFence], 5⟩

/-- Concrete fixture: the stored negative-radius fence of the C6
counterexample. -/
def negFence : GeoFenceRow := ⟨4, "f", 0, 0, -1, some 1⟩

/-- Concrete fixture: the audit row of the C6 counterexample INSERT. -/
def negAudit : AuditLogRow :=
  ⟨5, some 1, "INSERT", some "geo_fences", some 4, none, some (RowData.geoFence negFence), none⟩

/-- Concrete fixture: `exampleDB` after the C6 counterexample INSERT. -/
def dbAfterNeg : DB := ⟨[adminProfile], [], [], [negAudit], [ipEntry], [hqFence, negFence], 6⟩

/-- Concrete fixture: the audit row of the witnessed DELETE of `ipEntry`. -/
def delAudit : AuditLogRow :=
  ⟨4, some 1, "DELETE", some "ip_whitelist", some 2, some (RowData.ipWhitelist ipEntry), none, none⟩

/-- Concrete fixture: `exampleDB` after that DELETE. -/
def dbAfterDel : DB := ⟨[adminProfile], [], [], [delAudit], [], [hqFence], 5⟩

/-- Helper: squaring over `ℚ` is symmetric in the difference. -/
theorem sq_sub_comm (a b : ℚ) : (a - b) ^ 2 = (b - a) ^ 2 := by
  ring

/-- Shared characterization of the authorizer verdict, used by the C1 and C10
theorems. -/
theorem check_location_iff (db : DB) (plat plong : Option ℚ)
    (ip : String) :
    check_location_restrictions db plat plong ip = true ↔
      ((∃ e ∈ db.ip_whitelist, e.ip_address = ip) ∧
       ∃ la lo, plat = some la ∧ plong = some lo ∧
         ∃ f ∈ db.geo_fences, FenceContains f la lo) := by
  unfold check_location_restrictions
  simp only [Bool.and_eq_true, List.any_eq_true, decide_eq_true_eq]
  constructor
  · rintro ⟨⟨e, he, hip⟩, ⟨f, hf, hc⟩⟩
    refine ⟨⟨e, he, hip⟩, ?_⟩
    unfold pointInCircle at hc
    cases plong with
    | none => simp at hc
    | some lo =>
      cases plat with
      | none => simp at hc
      | some la =>
        simp only [Bool.and_eq_true, decide_eq_true_eq] at hc
        refine ⟨la, lo, rfl, rfl, f, hf, hc.1, ?_⟩
        rw [sq_sub_comm lo f.longitude, sq_sub_comm la f.latitude]
        exact hc.2
  · rintro ⟨⟨e, he, hip⟩, la, lo, hla, hlo, f, hf, hr, hd⟩
    subst hla; subst hlo
    refine ⟨⟨e, he, hip⟩, ⟨f, hf, ?_⟩⟩
    unfold pointInCircle
    simp only [Bool.and_eq_true, decide_eq_true_eq]
    refine ⟨hr, ?_⟩
    rw [sq_sub_comm f.longitude lo, sq_sub_comm f.latitude la]
    exact hd

/-- C1: The location authorizer returns true iff the ip is present in the IP
whitelist AND the given point (both coordinates present) falls within at least
one geo-fence's radius of its center, in planar degree coordinates; in
particular it is false whenever either sub-condition fails, including absent
coordinates and empty whitelist or fence set. -/
theorem check_location_restrictions_spec (db : DB) (plat plong : Option ℚ)
    (ip : String) :
    check_location_restrictions db plat plong ip = true ↔
      ((∃ e ∈ db.ip_whitelist, e.ip_address = ip) ∧
       ∃ la lo, plat = some la ∧ plong = some lo ∧
         ∃ f ∈ db.geo_fences, FenceContains f la lo) :=
  check_location_iff db plat plong ip

/-- C10: fence containment is inclusive — a point whose planar degree-distance
from a positive-radius fence center exactly equals the radius (stated
square-root-free: squared distance equals squared radius) passes the geo
sub-check of the authorizer. The theorem exhibits this through the whole
authorizer: with the ip whitelisted, the verdict is true, so the geo
sub-check accepted the boundary point. -/
theorem fence_boundary_inclusive (db : DB) (f : GeoFenceRow) (la lo : ℚ)
    (ip : String)
    (hf : f ∈ db.geo_fences) (hr : 0 < f.radius)
    (hb : (lo - f.longitude) ^ 2 + (la - f.latitude) ^ 2 = ((f.radius : ℚ)) ^ 2)
    (hip : ∃ e ∈ db.ip_whitelist, e.ip_address = ip) :
    check_location_restrictions db (some la) (some lo) ip = true := by
  rw [check_location_iff]
  exact ⟨hip, la, lo, rfl, rfl, f, hf, le_of_lt hr, le_of_eq hb⟩

/-- Witness for C10: a fence centered at (0, 0) with radius 5 and the point
(la, lo) = (4, 3), at squared distance 3² + 4² = 25 = 5², exactly on the
boundary; the ip "1.2.3.4" is whitelisted; the authorizer accepts. -/
theorem fence_boundary_inclusive_witness :
    check_location_restrictions
      ⟨[], [], [], [], [⟨0, "1.2.3.4", none, none⟩],
        [⟨1, "hq", 0, 0, 5, none⟩], 2⟩
      (some 4) (some 3) "1.2.3.4" = true := by
  apply fence_boundary_inclusive
    ⟨[], [], [], [], [⟨0, "1.2.3.4", none, none⟩], [⟨1, "hq", 0, 0, 5, none⟩], 2⟩
    ⟨1, "hq", 0, 0, 5, none⟩ 4 3 "1.2.3.4"
  · simp
  · decide
  · with_unfolding_all decide
  · exact ⟨⟨0, "1.2.3.4", none, none⟩, by simp, rfl⟩

/-- Helper: what a successful audit write produced. -/
theorem audit_ok_elim {ctx : ReqCtx} {op tbl : String} {oldR newR : Option RowData}
    {db1 db2 : DB}
    (h : audit_log_changes ctx op tbl oldR newR db1 = Except.ok db2) :
    ∃ hs, ctx.requestHeaders = some hs ∧ ctx.auditStoreFails = false ∧
      db2 = { db1 with
        audit_logs := db1.audit_logs ++ [auditRecord ctx hs op tbl oldR newR db1.nextId]
        nextId := db1.nextId + 1 } := by
  unfold audit_log_changes currentSettingRequestHeaders at h
  cases hh : ctx.requestHeaders with
  | none => rw [hh] at h; exact Except.noConfusion h
  | some hs =>
      rw [hh] at h
      cases hf : ctx.auditStoreFails with
      | true => rw [hf] at h; simp at h
      | false =>
          rw [hf] at h
          simp only [Bool.false_eq_true, if_false] at h
          injection h with h1
          exact ⟨hs, rfl, rfl, h1.symm⟩

/-- Helper: a failing store makes the audit write error out. -/
theorem audit_store_fails_error {ctx : ReqCtx} (hf : ctx.auditStoreFails = true)
    (op tbl : String) (oldR newR : Option RowData) (db1 : DB) :
    ∃ e, audit_log_changes ctx op tbl oldR newR db1 = Except.error e := by
  unfold audit_log_changes currentSettingRequestHeaders
  cases hh : ctx.requestHeaders with
  | none => exact ⟨DbError.unrecognizedConfigurationParameter, rfl⟩
  | some hs =>
      rw [hf]
      exact ⟨DbError.persistenceFailure, by simp⟩

/-- Helper: an absent `request.headers` setting makes the audit write raise. -/
theorem audit_headers_none_error {ctx : ReqCtx} (hh : ctx.requestHeaders = none)
    (op tbl : String) (oldR newR : Option RowData) (db1 : DB) :
    audit_log_changes ctx op tbl oldR newR db1 =
      Except.error DbError.unrecognizedConfigurationParameter := by
  unfold audit_log_changes currentSettingRequestHeaders
  rw [hh]

/-- Helper: the audit write touches only `audit_logs` and the id counter, so
table membership is unaffected. -/
theorem inDB_audit_ext (r : RowData) (db1 : DB) (logs : List AuditLogRow) (n : Nat) :
    RowData.inDB r { db1 with audit_logs := logs, nextId := n } ↔ r.inDB db1 := by
  cases r <;> exact Iff.rfl

/-- Helper: structural facts about any row change produced by `mutationStep` —
its trigger labels agree with the issued statement, the audit table and the
id counter are respected, and the OLD/NEW snapshots really are the
pre-mutation and post-mutation rows. -/
theorem mutationStep_changed {db : DB} {ctx : ReqCtx} {m : Mutation}
    {op tbl : String} {oldR newR : Option RowData} {db1 : DB}
    (h : mutationStep db ctx m = StepResult.changed op tbl oldR newR db1) :
    op = m.tgOp ∧ tbl = m.tableName ∧
    db1.audit_logs = db.audit_logs ∧
    db.nextId ≤ db1.nextId ∧
    (∀ r, newR = some r → r.inDB db1) ∧
    (∀ r, oldR = some r → r.inDB db) ∧
    (op = "INSERT" → oldR = none) ∧
    (op = "DELETE" → newR = none) ∧
    (op = "DELETE" → oldR.isSome = true) ∧
    ((op = "INSERT" ∨ op = "UPDATE") → newR.isSome = true) ∧
    (op = "INSERT" ∨ op = "UPDATE" ∨ op = "DELETE") := by
  cases m with
  | insertProfile pid email fn role eid dept =>
      simp only [mutationStep] at h
      repeat' split at h
      all_goals try exact StepResult.noConfusion h
      injection h with h1 h2 h3 h4 h5
      subst h1; subst h2; subst h3; subst h4; subst h5
      refine ⟨rfl, rfl, rfl, le_refl _, ?_, ?_, ?_, ?_, ?_, ?_, ?_⟩
      · intro r hr
        injection hr with hr1; subst hr1
        simp only [RowData.inDB]
        simp
      · intro r hr; exact Option.noConfusion hr
      · intro _; rfl
      · intro hop; exact absurd hop (by decide)
      · intro hop; exact absurd hop (by decide)
      · intro _; rfl
      · exact Or.inl rfl
  | updateProfile pid email fn role eid dept =>
      simp only [mutationStep] at h
      repeat' split at h
      all_goals try exact StepResult.noConfusion h
      rename_i oldP hfind hdup
      injection h with h1 h2 h3 h4 h5
      subst h1; subst h2; subst h3; subst h4; subst h5
      have hid : oldP.id = pid := by simpa using List.find?_some hfind
      refine ⟨rfl, rfl, rfl, le_refl _, ?_, ?_, ?_, ?_, ?_, ?_, ?_⟩
      · intro r hr
        injection hr with hr1; subst hr1
        simp only [RowData.inDB]
        have hmem := List.mem_map_of_mem
          (fun p => if p.id = pid then
            { oldP with email := email, full_name := fn, role := role,
                        employee_id := eid, department := dept } else p)
          (List.mem_of_find?_eq_some hfind)
        simpa [hid] using hmem
      · intro r hr
        injection hr with hr1; subst hr1
        simp only [RowData.inDB]
        exact List.mem_of_find?_eq_some hfind
      · intro hop; exact absurd hop (by decide)
      · intro hop; exact absurd hop (by decide)
      · intro hop; exact absurd hop (by decide)
      · intro _; rfl
      · exact Or.inr (Or.inl rfl)
  | deleteProfile pid =>
      simp only [mutationStep] at h
      exact StepResult.noConfusion h
  | insertTimeEntry user_id et ip di la lo nt =>
      simp only [mutationStep] at h
      repeat' split at h
      all_goals try exact StepResult.noConfusion h
      injection h with h1 h2 h3 h4 h5
      subst h1; subst h2; subst h3; subst h4; subst h5
      refine ⟨rfl, rfl, rfl, Nat.le_succ _, ?_, ?_, ?_, ?_, ?_, ?_, ?_⟩
      · intro r hr
        injection hr with hr1; subst hr1
        simp only [RowData.inDB]
        simp
      · intro r hr; exact Option.noConfusion hr
      · intro _; rfl
      · intro hop; exact absurd hop (by decide)
      · intro hop; exact absurd hop (by decide)
      · intro _; rfl
      · exact Or.inl rfl
  | updateTimeEntry tid =>
      simp only [mutationStep] at h
      exact StepResult.noConfusion h
  | deleteTimeEntry tid =>
      simp only [mutationStep] at h
      exact StepResult.noConfusion h
  | insertSchedule user_id st en =>
      simp only [mutationStep] at h
      repeat' split at h
      all_goals try exact StepResult.noConfusion h
      injection h with h1 h2 h3 h4 h5
      subst h1; subst h2; subst h3; subst h4; subst h5
      refine ⟨rfl, rfl, rfl, Nat.le_succ _, ?_, ?_, ?_, ?_, ?_, ?_, ?_⟩
      · intro r hr
        injection hr with hr1; subst hr1
        simp only [RowData.inDB]
        simp
      · intro r hr; exact Option.noConfusion hr
      · intro _; rfl
      · intro hop; exact absurd hop (by decide)
      · intro hop; exact absurd hop (by decide)
      · intro _; rfl
      · exact Or.inl rfl
  | updateSchedule sid st en =>
      simp only [mutationStep] at h
      repeat' split at h
      all_goals try exact StepResult.noConfusion h
      rename_i oldS hfind
      injection h with h1 h2 h3 h4 h5
      subst h1; subst h2; subst h3; subst h4; subst h5
      have hid : oldS.id = sid := by simpa using List.find?_some hfind
      refine ⟨rfl, rfl, rfl, le_refl _, ?_, ?_, ?_, ?_, ?_, ?_, ?_⟩
      · intro r hr
        injection hr with hr1; subst hr1
        simp only [RowData.inDB]
        have hmem := List.mem_map_of_mem
          (fun s => if s.id = sid then
            { oldS with start_time := st, end_time := en } else s)
          (List.mem_of_find?_eq_some hfind)
        simpa [hid] using hmem
      · intro r hr
        injection hr with hr1; subst hr1
        simp only [RowData.inDB]
        exact List.mem_of_find?_eq_some hfind
      · intro hop; exact absurd hop (by decide)
      · intro hop; exact absurd hop (by decide)
      · intro hop; exact absurd hop (by decide)
      · intro _; rfl
      · exact Or.inr (Or.inl rfl)
  | deleteSchedule sid =>
      simp only [mutationStep] at h
      repeat' split at h
      all_goals try exact StepResult.noConfusion h
      rename_i oldS hfind
      injection h with h1 h2 h3 h4 h5
      subst h1; subst h2; subst h3; subst h4; subst h5
      refine ⟨rfl, rfl, rfl, le_refl _, ?_, ?_, ?_, ?_, ?_, ?_, ?_⟩
      · intro r hr; exact Option.noConfusion hr
      · intro r hr
        injection hr with hr1; subst hr1
        simp only [RowData.inDB]
        exact List.mem_of_find?_eq_some hfind
      · intro hop; exact absurd hop (by decide)
      · intro _; rfl
      · intro _; rfl
      · intro hop; rcases hop with hop | hop <;> exact absurd hop (by decide)
      · exact Or.inr (Or.inr rfl)
  | insertIpWhitelist ip desc =>
      simp only [mutationStep] at h
      repeat' split at h
      all_goals try exact StepResult.noConfusion h
      injection h with h1 h2 h3 h4 h5
      subst h1; subst h2; subst h3; subst h4; subst h5
      refine ⟨rfl, rfl, rfl, Nat.le_succ _, ?_, ?_, ?_, ?_, ?_, ?_, ?_⟩
      · intro r hr
        injection hr with hr1; subst hr1
        simp only [RowData.inDB]
        simp
      · intro r hr; exact Option.noConfusion hr
      · intro _; rfl
      · intro hop; exact absurd hop (by decide)
      · intro hop; exact absurd hop (by decide)
      · intro _; rfl
      · exact Or.inl rfl
  | updateIpWhitelist eid ip desc =>
      simp only [mutationStep] at h
      repeat' split at h
      all_goals try exact StepResult.noConfusion h
      rename_i oldE hfind hdup
      injection h with h1 h2 h3 h4 h5
      subst h1; subst h2; subst h3; subst h4; subst h5
      have hid : oldE.id = eid := by simpa using List.find?_some hfind
      refine ⟨rfl, rfl, rfl, le_refl _, ?_, ?_, ?_, ?_, ?_, ?_, ?_⟩
      · intro r hr
        injection hr with hr1; subst hr1
        simp only [RowData.inDB]
        have hmem := List.mem_map_of_mem
          (fun e => if e.id = eid then
            { oldE with ip_address := ip, description := desc } else e)
          (List.mem_of_find?_eq_some hfind)
        simpa [hid] using hmem
      · intro r hr
        injection hr with hr1; subst hr1
        simp only [RowData.inDB]
        exact List.mem_of_find?_eq_some hfind
      · intro hop; exact absurd hop (by decide)
      · intro hop; exact absurd hop (by decide)
      · intro hop; exact absurd hop (by decide)
      · intro _; rfl
      · exact Or.inr (Or.inl rfl)
  | deleteIpWhitelist eid =>
      simp only [mutationStep] at h
      repeat' split at h
      all_goals try exact StepResult.noConfusion h
      rename_i oldE hfind
      injection h with h1 h2 h3 h4 h5
      subst h1; subst h2; subst h3; subst h4; subst h5
      refine ⟨rfl, rfl, rfl, le_refl _, ?_, ?_, ?_, ?_, ?_, ?_, ?_⟩
      · intro r hr; exact Option.noConfusion hr
      · intro r hr
        injection hr with hr1; subst hr1
        simp only [RowData.inDB]
        exact List.mem_of_find?_eq_some hfind
      · intro hop; exact absurd hop (by decide)
      · intro _; rfl
      · intro _; rfl
      · intro hop; rcases hop with hop | hop <;> exact absurd hop (by decide)
      · exact Or.inr (Or.inr rfl)
  | insertGeoFence name la lo radius =>
      simp only [mutationStep] at h
      repeat' split at h
      all_goals try exact StepResult.noConfusion h
      injection h with h1 h2 h3 h4 h5
      subst h1; subst h2; subst h3; subst h4; subst h5
      refine ⟨rfl, rfl, rfl, Nat.le_succ _, ?_, ?_, ?_, ?_, ?_, ?_, ?_⟩
      · intro r hr
        injection hr with hr1; subst hr1
        simp only [RowData.inDB]
        simp
      · intro r hr; exact Option.noConfusion hr
      · intro _; rfl
      · intro hop; exact absurd hop (by decide)
      · intro hop; exact absurd hop (by decide)
      · intro _; rfl
      · exact Or.inl rfl
  | updateGeoFence gid name la lo radius =>
      simp only [mutationStep] at h
      repeat' split at h
      all_goals try exact StepResult.noConfusion h
      rename_i oldG hfind
      injection h with h1 h2 h3 h4 h5
      subst h1; subst h2; subst h3; subst h4; subst h5
      have hid : oldG.id = gid := by simpa using List.find?_some hfind
      refine ⟨rfl, rfl, rfl, le_refl _, ?_, ?_, ?_, ?_, ?_, ?_, ?_⟩
      · intro r hr
        injection hr with hr1; subst hr1
        simp only [RowData.inDB]
        have hmem := List.mem_map_of_mem
          (fun g => if g.id = gid then
            { oldG with name := name, latitude := la, longitude := lo, radius := radius } else g)
          (List.mem_of_find?_eq_some hfind)
        simpa [hid] using hmem
      · intro r hr
        injection hr with hr1; subst hr1
        simp only [RowData.inDB]
        exact List.mem_of_find?_eq_some hfind
      · intro hop; exact absurd hop (by decide)
      · intro hop; exact absurd hop (by decide)
      · intro hop; exact absurd hop (by decide)
      · intro _; rfl
      · exact Or.inr (Or.inl rfl)
  | deleteGeoFence gid =>
      simp only [mutationStep] at h
      repeat' split at h
      all_goals try exact StepResult.noConfusion h
      rename_i oldG hfind
      injection h with h1 h2 h3 h4 h5
      subst h1; subst h2; subst h3; subst h4; subst h5
      refine ⟨rfl, rfl, rfl, le_refl _, ?_, ?_, ?_, ?_, ?_, ?_, ?_⟩
      · intro r hr; exact Option.noConfusion hr
      · intro r hr
        injection hr with hr1; subst hr1
        simp only [RowData.inDB]
        exact List.mem_of_find?_eq_some hfind
      · intro hop; exact absurd hop (by decide)
      · intro _; rfl
      · intro _; rfl
      · intro hop; rcases hop with hop | hop <;> exact absurd hop (by decide)
      · exact Or.inr (Or.inr rfl)

/-- Helper: the whitelist invariant only depends on the whitelist and a lower
bound on the id counter. -/
theorem ipwInv_mono {dbA dbB : DB} (hip : dbB.ip_whitelist = dbA.ip_whitelist)
    (hn : dbA.nextId ≤ dbB.nextId) (h : IpwInv dbA) : IpwInv dbB := by
  obtain ⟨hbound, hids, hips⟩ := h
  refine ⟨?_, ?_, ?_⟩
  · intro r hr
    rw [hip] at hr
    exact lt_of_lt_of_le (hbound r hr) hn
  · rw [hip]; exact hids
  · unfold IpsDistinct at hips ⊢
    rw [hip]; exact hips

/-- Helper: the row-level part of every statement preserves the whitelist
invariant. -/
theorem mutationStep_ipwInv {db : DB} {ctx : ReqCtx} {m : Mutation}
    {op tbl : String} {oldR newR : Option RowData} {db1 : DB}
    (hinv : IpwInv db)
    (hstep : mutationStep db ctx m = StepResult.changed op tbl oldR newR db1) :
    IpwInv db1 := by
  cases m with
  | insertProfile pid email fn role eid dept =>
      simp only [mutationStep] at hstep
      repeat' split at hstep
      all_goals try exact StepResult.noConfusion hstep
      injection hstep with h1 h2 h3 h4 h5
      exact ipwInv_mono (by rw [← h5]) (by rw [← h5]) hinv
  | updateProfile pid email fn role eid dept =>
      simp only [mutationStep] at hstep
      repeat' split at hstep
      all_goals try exact StepResult.noConfusion hstep
      injection hstep with h1 h2 h3 h4 h5
      exact ipwInv_mono (by rw [← h5]) (by rw [← h5]) hinv
  | deleteProfile pid =>
      simp only [mutationStep] at hstep
      exact StepResult.noConfusion hstep
  | insertTimeEntry user_id et ip di la lo nt =>
      simp only [mutationStep] at hstep
      repeat' split at hstep
      all_goals try exact StepResult.noConfusion hstep
      injection hstep with h1 h2 h3 h4 h5
      exact ipwInv_mono (by rw [← h5]) (by rw [← h5]; exact Nat.le_succ _) hinv
  | updateTimeEntry tid =>
      simp only [mutationStep] at hstep
      exact StepResult.noConfusion hstep
  | deleteTimeEntry tid =>
      simp only [mutationStep] at hstep
      exact StepResult.noConfusion hstep
  | insertSchedule user_id st en =>
      simp only [mutationStep] at hstep
      repeat' split at hstep
      all_goals try exact StepResult.noConfusion hstep
      injection hstep with h1 h2 h3 h4 h5
      exact ipwInv_mono (by rw [← h5]) (by rw [← h5]; exact Nat.le_succ _) hinv
  | updateSchedule sid st en =>
      simp only [mutationStep] at hstep
      repeat' split at hstep
      all_goals try exact StepResult.noConfusion hstep
      injection hstep with h1 h2 h3 h4 h5
      exact ipwInv_mono (by rw [← h5]) (by rw [← h5]) hinv
  | deleteSchedule sid =>
      simp only [mutationStep] at hstep
      repeat' split at hstep
      all_goals try exact StepResult.noConfusion hstep
      injection hstep with h1 h2 h3 h4 h5
      exact ipwInv_mono (by rw [← h5]) (by rw [← h5]) hinv
  | insertIpWhitelist ip desc =>
      simp only [mutationStep] at hstep
      repeat' split at hstep
      all_goals try exact StepResult.noConfusion hstep
      rename_i hdup
      injection hstep with h1 h2 h3 h4 h5
      subst h5
      obtain ⟨hbound, hids, hips⟩ := hinv
      have hips' : db.ip_whitelist.Pairwise (fun a b => a.ip_address ≠ b.ip_address) := hips
      refine ⟨?_, ?_, ?_⟩
      · intro r hr
        rcases List.mem_append.mp hr with hmem | hmem
        · exact Nat.lt_succ_of_lt (hbound r hmem)
        · rw [List.mem_singleton] at hmem
          subst hmem
          exact Nat.lt_succ_self _
      · rw [show ({ db with
            ip_whitelist := db.ip_whitelist ++ [⟨db.nextId, ip, desc, ctx.uid⟩],
            nextId := db.nextId + 1 } : DB).ip_whitelist =
              db.ip_whitelist ++ [⟨db.nextId, ip, desc, ctx.uid⟩] from rfl]
        rw [List.pairwise_append]
        refine ⟨hids, by simp, ?_⟩
        intro a ha' b hb'
        rw [List.mem_singleton] at hb'
        subst hb'
        exact Nat.ne_of_lt (hbound a ha')
      · unfold IpsDistinct
        rw [show ({ db with
            ip_whitelist := db.ip_whitelist ++ [⟨db.nextId, ip, desc, ctx.uid⟩],
            nextId := db.nextId + 1 } : DB).ip_whitelist =
              db.ip_whitelist ++ [⟨db.nextId, ip, desc, ctx.uid⟩] from rfl]
        rw [List.pairwise_append]
        refine ⟨hips', by simp, ?_⟩
        intro a ha' b hb'
        rw [List.mem_singleton] at hb'
        subst hb'
        intro hcontra
        exact hdup (List.any_eq_true.mpr ⟨a, ha', by simp [hcontra]⟩)
  | updateIpWhitelist eid ip desc =>
      simp only [mutationStep] at hstep
      repeat' split at hstep
      all_goals try exact StepResult.noConfusion hstep
      rename_i oldE hfind hdup
      injection hstep with h1 h2 h3 h4 h5
      subst h5
      obtain ⟨hbound, hids, hips⟩ := hinv
      have hips' : db.ip_whitelist.Pairwise (fun a b => a.ip_address ≠ b.ip_address) := hips
      have hid : oldE.id = eid := by simpa using List.find?_some hfind
      have hmemE : oldE ∈ db.ip_whitelist := List.mem_of_find?_eq_some hfind
      refine ⟨?_, ?_, ?_⟩
      · intro r hr
        rcases List.mem_map.mp hr with ⟨a, ha', rfl⟩
        by_cases h1 : a.id = eid
        · rw [if_pos h1]
          exact hbound oldE hmemE
        · rw [if_neg h1]
          exact hbound a ha'
      · rw [List.pairwise_map]
        refine hids.imp ?_
        intro a b hab
        by_cases h1 : a.id = eid <;> by_cases h2 : b.id = eid
        · exact absurd (h1.trans h2.symm) hab
        · rw [if_pos h1, if_neg h2]
          show oldE.id ≠ b.id
          rw [hid, ← h1]
          exact hab
        · rw [if_neg h1, if_pos h2]
          show a.id ≠ oldE.id
          rw [hid, ← h2]
          exact hab
        · rw [if_neg h1, if_neg h2]
          exact hab
      · unfold IpsDistinct
        rw [show ({ db with ip_whitelist := db.ip_whitelist.map (fun e =>
              if e.id = eid then { oldE with ip_address := ip, description := desc } else e) } :
                DB).ip_whitelist =
              db.ip_whitelist.map (fun e =>
                if e.id = eid then { oldE with ip_address := ip, description := desc } else e)
            from rfl]
        rw [List.pairwise_map]
        refine List.Pairwise.imp_of_mem ?_ (hids.and hips')
        intro a b ha' hb' hab
        obtain ⟨hidab, hipab⟩ := hab
        by_cases h1 : a.id = eid <;> by_cases h2 : b.id = eid
        · exact absurd (h1.trans h2.symm) hidab
        · rw [if_pos h1, if_neg h2]
          show ip ≠ b.ip_address
          intro hcontra
          exact hdup (List.any_eq_true.mpr ⟨b, hb', by simp [h2, hcontra.symm]⟩)
        · rw [if_neg h1, if_pos h2]
          show a.ip_address ≠ ip
          intro hcontra
          exact hdup (List.any_eq_true.mpr ⟨a, ha', by simp [h1, hcontra]⟩)
        · rw [if_neg h1, if_neg h2]
          exact hipab
  | deleteIpWhitelist eid =>
      simp only [mutationStep] at hstep
      repeat' split at hstep
      all_goals try exact StepResult.noConfusion hstep
      rename_i oldE hfind
      injection hstep with h1 h2 h3 h4 h5
      subst h5
      obtain ⟨hbound, hids, hips⟩ := hinv
      have hips' : db.ip_whitelist.Pairwise (fun a b => a.ip_address ≠ b.ip_address) := hips
      refine ⟨?_, ?_, ?_⟩
      · intro r hr
        exact hbound r (List.mem_of_mem_filter hr)
      · exact hids.filter _
      · unfold IpsDistinct
        exact hips'.filter _
  | insertGeoFence name la lo radius =>
      simp only [mutationStep] at hstep
      repeat' split at hstep
      all_goals try exact StepResult.noConfusion hstep
      injection hstep with h1 h2 h3 h4 h5
      exact ipwInv_mono (by rw [← h5]) (by rw [← h5]; exact Nat.le_succ _) hinv
  | updateGeoFence gid name la lo radius =>
      simp only [mutationStep] at hstep
      repeat' split at hstep
      all_goals try exact StepResult.noConfusion hstep
      injection hstep with h1 h2 h3 h4 h5
      exact ipwInv_mono (by rw [← h5]) (by rw [← h5]) hinv
  | deleteGeoFence gid =>
      simp only [mutationStep] at hstep
      repeat' split at hstep
      all_goals try exact StepResult.noConfusion hstep
      injection hstep with h1 h2 h3 h4 h5
      exact ipwInv_mono (by rw [← h5]) (by rw [← h5]) hinv

/-- Helper: one whole statement (with its audit write and transaction
boundary) preserves the whitelist invariant. -/
theorem ipwInv_step (db : DB) (ctx : ReqCtx) (m : Mutation) (h : IpwInv db) :
    IpwInv (commit db (applyMutation db ctx m)) := by
  cases hstep : mutationStep db ctx m with
  | denied e =>
      have happ : applyMutation db ctx m = Except.error e := by
        unfold applyMutation; rw [hstep]
      rw [happ]; exact h
  | noop =>
      have happ : applyMutation db ctx m = Except.ok db := by
        unfold applyMutation; rw [hstep]
      rw [happ]; exact h
  | changed op tbl oldR newR db1 =>
      have happ : applyMutation db ctx m = audit_log_changes ctx op tbl oldR newR db1 := by
        unfold applyMutation; rw [hstep]
      rw [happ]
      cases ha : audit_log_changes ctx op tbl oldR newR db1 with
      | error e => exact h
      | ok db2 =>
          obtain ⟨hs, hh, hf, rfl⟩ := audit_ok_elim ha
          exact @ipwInv_mono db1 _ rfl (Nat.le_succ _) (mutationStep_ipwInv h hstep)

/-- Helper: the whitelist invariant holds along any run of statements. -/
theorem runOps_ipwInv (ops : List (ReqCtx × Mutation)) :
    ∀ db, IpwInv db → IpwInv (runOps db ops) := by
  induction ops with
  | nil => intro db h; exact h
  | cons cm rest ih =>
      intro db h
      exact ih _ (ipwInv_step db cm.1 cm.2 h)

/-- Helper: a successful statement either touched zero rows (state unchanged)
or consists of a row change plus exactly the one audit row the trigger
appended. -/
theorem applyMutation_ok_elim {db : DB} {ctx : ReqCtx} {m : Mutation} {dbr : DB}
    (h : applyMutation db ctx m = Except.ok dbr) :
    dbr = db ∨
    ∃ op tbl oldR newR db1 hs,
      mutationStep db ctx m = StepResult.changed op tbl oldR newR db1 ∧
      ctx.requestHeaders = some hs ∧ ctx.auditStoreFails = false ∧
      dbr = { db1 with
        audit_logs := db1.audit_logs ++ [auditRecord ctx hs op tbl oldR newR db1.nextId]
        nextId := db1.nextId + 1 } := by
  unfold applyMutation at h
  cases hstep : mutationStep db ctx m with
  | denied e => rw [hstep] at h; exact Except.noConfusion h
  | noop =>
      rw [hstep] at h
      injection h with h1
      exact Or.inl h1.symm
  | changed op tbl oldR newR db1 =>
      rw [hstep] at h
      obtain ⟨hs, hh, hf, hdb⟩ := audit_ok_elim h
      exact Or.inr ⟨op, tbl, oldR, newR, db1, hs, rfl, hh, hf, hdb⟩

/-- C2: if persisting the audit record fails, the enclosing mutation fails and
is rolled back (`commit` returns the pre-state, and any statement whose
row-level part changed a row surfaces an error); conversely a mutation only
takes effect together with its audit record (every success either changed
nothing or appended exactly one audit row). -/
theorem audit_failure_rolls_back (db : DB) (ctx : ReqCtx) (m : Mutation) :
    (ctx.auditStoreFails = true →
       commit db (applyMutation db ctx m) = db ∧
       ∀ op tbl oldR newR db1,
         mutationStep db ctx m = StepResult.changed op tbl oldR newR db1 →
         ∃ e, applyMutation db ctx m = Except.error e) ∧
    (∀ dbr, applyMutation db ctx m = Except.ok dbr →
       dbr = db ∨ dbr.audit_logs.length = db.audit_logs.length + 1) := by
  constructor
  · intro hf
    constructor
    · cases hstep : mutationStep db ctx m with
      | denied e =>
          unfold applyMutation
          rw [hstep]
          rfl
      | noop =>
          unfold applyMutation
          rw [hstep]
          rfl
      | changed op tbl oldR newR db1 =>
          obtain ⟨e, he⟩ := audit_store_fails_error hf op tbl oldR newR db1
          unfold applyMutation
          rw [hstep]
          show commit db (audit_log_changes ctx op tbl oldR newR db1) = db
          rw [he]
          rfl
    · intro op tbl oldR newR db1 hstep
      obtain ⟨e, he⟩ := audit_store_fails_error hf op tbl oldR newR db1
      refine ⟨e, ?_⟩
      unfold applyMutation
      rw [hstep]
      exact he
  · intro dbr h
    rcases applyMutation_ok_elim h with h1 | ⟨op, tbl, oldR, newR, db1, hs, hstep, hh, hf, hdb⟩
    · exact Or.inl h1
    · right
      obtain ⟨_, _, haud, _⟩ := mutationStep_changed hstep
      rw [hdb]
      show (db1.audit_logs ++ [_]).length = _
      rw [haud]
      simp

/-- Witness for C2: with the store rejecting the audit INSERT, an otherwise
valid admin geo-fence insert leaves the database unchanged. -/
theorem audit_failure_rolls_back_witness :
    commit exampleDB
      (applyMutation exampleDB failCtx (Mutation.insertGeoFence "hq2" 20 20 100)) =
      exampleDB :=
  ((audit_failure_rolls_back exampleDB failCtx (Mutation.insertGeoFence "hq2" 20 20 100)).1
    rfl).1

/-- C3: every successful statement that changed the database appended exactly
one audit record, labelled with the statement's operation and table (a
success that changed nothing touched zero rows, so no mutation occurred and
none escapes the trail); and every successful `record_event` call creates
exactly one time entry and exactly one audit record with action INSERT on
table time_entries. -/
theorem mutation_creates_one_audit_record (db : DB) (ctx : ReqCtx) :
    (∀ m dbr, applyMutation db ctx m = Except.ok dbr →
       dbr = db ∨ ∃ rec, dbr.audit_logs = db.audit_logs ++ [rec] ∧
         rec.action = m.tgOp ∧ rec.table_name = some m.tableName) ∧
    (∀ u et ip di la lo nt dbr,
       record_event db ctx u et ip di la lo nt = Except.ok dbr →
       dbr.time_entries.length = db.time_entries.length + 1 ∧
       ∃ rec, dbr.audit_logs = db.audit_logs ++ [rec] ∧
         rec.action = "INSERT" ∧ rec.table_name = some "time_entries") := by
  constructor
  · intro m dbr h
    rcases applyMutation_ok_elim h with h1 | ⟨op, tbl, oldR, newR, db1, hs, hstep, hh, hf, hdb⟩
    · exact Or.inl h1
    · right
      obtain ⟨hop, htbl, haud, _⟩ := mutationStep_changed hstep
      refine ⟨auditRecord ctx hs op tbl oldR newR db1.nextId, ?_, hop, ?_⟩
      · rw [hdb]
        show db1.audit_logs ++ [_] = _
        rw [haud]
      · show some tbl = some m.tableName
        rw [htbl]
  · intro u et ip di la lo nt dbr h
    unfold record_event at h
    by_cases hchk : check_location_restrictions db la lo ip = true
    · rw [if_pos hchk] at h
      cases happ : applyMutation db ctx (Mutation.insertTimeEntry u et (some ip) di la lo nt) with
      | error e => rw [happ] at h; exact Except.noConfusion h
      | ok dbn =>
          rw [happ] at h
          injection h with h1
          subst h1
          simp only [applyMutation, mutationStep] at happ
          by_cases hu : ctx.uid = some u
          · rw [if_pos hu] at happ
            obtain ⟨hs, hh, hf, hdb⟩ := audit_ok_elim happ
            rw [hdb]
            constructor
            · show (db.time_entries ++ [_]).length = _
              simp
            · exact ⟨auditRecord ctx hs "INSERT" "time_entries" none
                (some (RowData.timeEntry ⟨db.nextId, u, et, some ip, di, la, lo, nt⟩))
                (db.nextId + 1), rfl, rfl, rfl⟩
          · rw [if_neg hu] at happ
            exact Except.noConfusion happ
    · rw [if_neg hchk] at h
      exact Except.noConfusion h

/-- Witness for C3: the concrete clock-in of Scenario B persists, adding one
time entry (and, per the applied theorem, one INSERT/time_entries audit row). -/
theorem mutation_creates_one_audit_record_witness :
    dbAfterClock.time_entries.length = exampleDB.time_entries.length + 1 :=
  ((mutation_creates_one_audit_record exampleDB adminCtx).2 1 EntryType.clock_in "1.2.3.4"
    none (some 10) (some 10) none dbAfterClock (by with_unfolding_all rfl)).1

/-- Counterexample for C5 as stated: the audit record of a successful UPDATE
on `ip_whitelist` carries `old_data = none` — the trigger only stores the
prior-row snapshot for DELETE (`CASE WHEN TG_OP = 'DELETE'`), so the claim
that every UPDATE audit record contains the pre-mutation row is false: the
pre-mutation row `ipEntry` existed, yet `old_data` is not its snapshot. -/
theorem audit_update_old_data_missing :
    applyMutation exampleDB adminCtx (Mutation.updateIpWhitelist 2 "5.6.7.8" none) =
      Except.ok dbAfterUpd ∧
    dbAfterUpd.audit_logs = [updAudit] ∧
    updAudit.action = "UPDATE" ∧
    updAudit.old_data = none ∧
    ipEntry ∈ exampleDB.ip_whitelist ∧
    updAudit.old_data ≠ some (RowData.ipWhitelist ipEntry) := by
  refine ⟨by with_unfolding_all rfl, rfl, rfl, rfl, by decide, by decide⟩

/-- C5 amended: in every audit record produced by a successful statement, the
prior-row snapshot (`old_data`) is present exactly for DELETE and matches the
pre-mutation row, and the new-row snapshot (`new_data`) is present exactly
for INSERT and UPDATE and matches the committed row; for UPDATE the
prior-row snapshot is NOT recorded (`old_data = none`). -/
theorem audit_snapshot_shape (db : DB) (ctx : ReqCtx) (m : Mutation) (dbr : DB)
    (rec : AuditLogRow)
    (h : applyMutation db ctx m = Except.ok dbr)
    (hrec : dbr.audit_logs = db.audit_logs ++ [rec]) :
    (rec.action = "DELETE" →
       rec.new_data = none ∧ ∃ r, rec.old_data = some r ∧ r.inDB db) ∧
    ((rec.action = "INSERT" ∨ rec.action = "UPDATE") →
       rec.old_data = none ∧ ∃ r, rec.new_data = some r ∧ r.inDB dbr) := by
  rcases applyMutation_ok_elim h with h1 | ⟨op, tbl, oldR, newR, db1, hs, hstep, hh, hf, hdb⟩
  · subst h1
    exact absurd hrec (by simp)
  · obtain ⟨hop, htbl, haud, hnext, hnew, hold, hIold, hDnew, hDold, hIUnew, hops⟩ :=
      mutationStep_changed hstep
    have hrecApp : db.audit_logs ++ [auditRecord ctx hs op tbl oldR newR db1.nextId] =
        db.audit_logs ++ [rec] := by
      rw [← hrec, hdb]
      show db.audit_logs ++ [auditRecord ctx hs op tbl oldR newR db1.nextId] =
        db1.audit_logs ++ [auditRecord ctx hs op tbl oldR newR db1.nextId]
      rw [haud]
    have hrecEq : auditRecord ctx hs op tbl oldR newR db1.nextId = rec := by
      simpa using hrecApp
    subst hrecEq
    constructor
    · intro hact
      have hopD : op = "DELETE" := hact
      subst hopD
      constructor
      · show (if ("DELETE" = "INSERT" ∨ "DELETE" = "UPDATE") then newR else none) = none
        rw [if_neg (by decide)]
      · obtain ⟨r0, hr0⟩ := Option.isSome_iff_exists.mp (hDold rfl)
        refine ⟨r0, ?_, hold r0 hr0⟩
        show (if ("DELETE" : String) = "DELETE" then oldR else none) = some r0
        rw [if_pos rfl]
        exact hr0
    · intro hact
      have hopIU : op = "INSERT" ∨ op = "UPDATE" := hact
      constructor
      · show (if op = "DELETE" then oldR else none) = none
        rcases hopIU with h2 | h2 <;> subst h2 <;> rw [if_neg (by decide)]
      · obtain ⟨r0, hr0⟩ := Option.isSome_iff_exists.mp (hIUnew hopIU)
        refine ⟨r0, ?_, ?_⟩
        · show (if (op = "INSERT" ∨ op = "UPDATE") then newR else none) = some r0
          rw [if_pos hopIU]
          exact hr0
        · rw [hdb]
          exact (inDB_audit_ext r0 db1 _ _).mpr (hnew r0 hr0)

/-- Witness for C5 amended: the concrete admin DELETE of the whitelisted ip
produces an audit record whose `new_data` is `none` (with, per the applied
theorem, `old_data` matching the deleted row). -/
theorem audit_snapshot_shape_witness :
    delAudit.new_data = none :=
  ((audit_snapshot_shape exampleDB adminCtx (Mutation.deleteIpWhitelist 2) dbAfterDel delAudit
    (by with_unfolding_all rfl) (by rfl)).1 rfl).1

/-- Counterexample for C9 as stated: when the `request.headers` setting is
absent, the one-argument `current_setting` call raises, the audit write
fails, and the enclosing (otherwise valid, admin-issued) mutation errors out
instead of succeeding with a null origin ip. -/
theorem headers_absent_mutation_fails :
    applyMutation exampleDB noHeadersCtx (Mutation.insertGeoFence "hq2" 10 10 500) =
      Except.error DbError.unrecognizedConfigurationParameter ∧
    commit exampleDB
        (applyMutation exampleDB noHeadersCtx (Mutation.insertGeoFence "hq2" 10 10 500)) =
      exampleDB := by
  refine ⟨by with_unfolding_all rfl, by with_unfolding_all rfl⟩

/-- C9 amended: when the `request.headers` setting is present but carries no
x-forwarded-for entry, the audit record's `ip_address` is null (and the
mutation can succeed, as the witness shows); when the setting itself is
absent, no mutation takes effect — `current_setting` raises and the
transaction is rolled back. -/
theorem audit_origin_ip_null (db : DB) (ctx : ReqCtx) (m : Mutation) :
    (ctx.requestHeaders = none → commit db (applyMutation db ctx m) = db) ∧
    (∀ hs dbr rec, ctx.requestHeaders = some hs →
       headerValue hs "x-forwarded-for" = none →
       applyMutation db ctx m = Except.ok dbr →
       dbr.audit_logs = db.audit_logs ++ [rec] →
       rec.ip_address = none) := by
  constructor
  · intro hh
    cases hstep : mutationStep db ctx m with
    | denied e =>
        unfold applyMutation
        rw [hstep]
        rfl
    | noop =>
        unfold applyMutation
        rw [hstep]
        rfl
    | changed op tbl oldR newR db1 =>
        unfold applyMutation
        rw [hstep]
        show commit db (audit_log_changes ctx op tbl oldR newR db1) = db
        rw [audit_headers_none_error hh op tbl oldR newR db1]
        rfl
  · intro hs dbr rec hh hfwd happ hrec
    rcases applyMutation_ok_elim happ with h1 | ⟨op, tbl, oldR, newR, db1, hs2, hstep, hh2, hf, hdb⟩
    · subst h1
      exact absurd hrec (by simp)
    · have hs2eq : hs = hs2 := Option.some.inj (hh.symm.trans hh2)
      subst hs2eq
      obtain ⟨hop, htbl, haud, _⟩ := mutationStep_changed hstep
      have hrecApp : db.audit_logs ++ [auditRecord ctx hs op tbl oldR newR db1.nextId] =
          db.audit_logs ++ [rec] := by
        rw [← hrec, hdb]
        show db.audit_logs ++ [auditRecord ctx hs op tbl oldR newR db1.nextId] =
          db1.audit_logs ++ [auditRecord ctx hs op tbl oldR newR db1.nextId]
        rw [haud]
      have hrecEq : auditRecord ctx hs op tbl oldR newR db1.nextId = rec := by
        simpa using hrecApp
      rw [← hrecEq]
      show headerValue hs "x-forwarded-for" = none
      exact hfwd

/-- Witness for C9 amended: the successful concrete UPDATE (headers present,
no x-forwarded-for entry) yields an audit record with a null origin ip. -/
theorem audit_origin_ip_null_witness :
    updAudit.ip_address = none :=
  (audit_origin_ip_null exampleDB adminCtx (Mutation.updateIpWhitelist 2 "5.6.7.8" none)).2
    [] dbAfterUpd updAudit rfl rfl (by with_unfolding_all rfl) (by rfl)

/-- C4: whenever the location authorizer returns false for the attempted
clock event's coordinates and ip, `record_event` fails with LocationDenied
and nothing is persisted — no time entry and no audit record (the state is
unchanged). The rejection happens before the INSERT is even attempted. -/
theorem location_denied_not_persisted (db : DB) (ctx : ReqCtx) (u : Uuid) (et : EntryType)
    (ip : String) (di : Option String) (la lo : Option ℚ) (nt : Option String)
    (h : check_location_restrictions db la lo ip = false) :
    record_event db ctx u et ip di la lo nt = Except.error RecordError.locationDenied ∧
    commitR db (record_event db ctx u et ip di la lo nt) = db := by
  have h1 : record_event db ctx u et ip di la lo nt =
      Except.error RecordError.locationDenied := by
    unfold record_event
    rw [h, if_neg Bool.false_ne_true]
  refine ⟨h1, ?_⟩
  rw [h1]
  rfl

/-- Witness for C4 (Scenario C): the ip "9.9.9.9" is not whitelisted although
the point (10, 10) is inside the fence, so the clock-in is rejected with
LocationDenied. -/
theorem location_denied_not_persisted_witness :
    record_event exampleDB adminCtx 1 EntryType.clock_in "9.9.9.9" none
      (some 10) (some 10) none = Except.error RecordError.locationDenied :=
  (location_denied_not_persisted exampleDB adminCtx 1 EntryType.clock_in "9.9.9.9" none
    (some 10) (some 10) none (by with_unfolding_all rfl)).1

/-- Counterexample for C6 as stated: the schema has no CHECK constraint on
`geo_fences.radius`, so an admin INSERT with radius = -1 does not fail with a
ValidationError — it succeeds, stores the row, and produces an audit record. -/
theorem geo_fence_negative_radius_accepted :
    applyMutation exampleDB adminCtx (Mutation.insertGeoFence "f" 0 0 (-1)) =
      Except.ok dbAfterNeg ∧
    dbAfterNeg.geo_fences = [hqFence, negFence] ∧
    negFence.radius = -1 ∧
    dbAfterNeg.audit_logs.length = exampleDB.audit_logs.length + 1 := by
  refine ⟨by with_unfolding_all rfl, rfl, rfl, rfl⟩

/-- C6 amended: inserting a GeoFence with non-positive radius is NOT rejected
by the schema: for an admin request (with a working audit environment) the
row — radius unchanged — is stored and exactly one audit record is written,
so stored fences are not guaranteed to have radius > 0. -/
theorem geo_fence_nonpositive_radius_stored (db : DB) (ctx : ReqCtx) (name : String)
    (la lo : ℚ) (r : Int) (hs : List (String × String))
    (hadmin : isAdmin db ctx.uid = true)
    (hh : ctx.requestHeaders = some hs)
    (hsf : ctx.auditStoreFails = false)
    (_hr : r ≤ 0) :
    applyMutation db ctx (Mutation.insertGeoFence name la lo r) =
      Except.ok { db with
        geo_fences := db.geo_fences ++ [⟨db.nextId, name, la, lo, r, ctx.uid⟩]
        audit_logs := db.audit_logs ++ [auditRecord ctx hs "INSERT" "geo_fences" none
          (some (RowData.geoFence ⟨db.nextId, name, la, lo, r, ctx.uid⟩)) (db.nextId + 1)]
        nextId := db.nextId + 1 + 1 } := by
  simp only [applyMutation, mutationStep]
  rw [if_pos hadmin]
  show audit_log_changes ctx "INSERT" "geo_fences" none
      (some (RowData.geoFence ⟨db.nextId, name, la, lo, r, ctx.uid⟩))
      { db with geo_fences := db.geo_fences ++ [⟨db.nextId, name, la, lo, r, ctx.uid⟩]
                nextId := db.nextId + 1 } = _
  unfold audit_log_changes currentSettingRequestHeaders
  rw [hh, hsf]
  rfl

/-- Witness for C6 amended: the admin INSERT of a radius -1 fence into the
example database succeeds and yields exactly the database with the fence row
and its audit record appended. -/
theorem geo_fence_nonpositive_radius_stored_witness :
    applyMutation exampleDB adminCtx (Mutation.insertGeoFence "f" 0 0 (-1)) =
      Except.ok dbAfterNeg :=
  geo_fence_nonpositive_radius_stored exampleDB adminCtx "f" 0 0 (-1) [] rfl rfl rfl
    (by decide)

/-- C7: the only INSERT policy on `time_entries` is
`WITH CHECK (auth.uid() = user_id)`, with no role-based exception: an insert
can succeed only when the acting principal is the row's owner, and an insert
naming a different owner fails with AccessDenied leaving the database — in
particular the time entries and the audit trail — unchanged, even when the
acting principal is an admin. -/
theorem time_entries_insert_self_only (db : DB) (ctx : ReqCtx) (u : Uuid) (et : EntryType)
    (ip di : Option String) (la lo : Option ℚ) (nt : Option String) :
    ((∃ dbr, applyMutation db ctx (Mutation.insertTimeEntry u et ip di la lo nt) =
        Except.ok dbr) → ctx.uid = some u) ∧
    (ctx.uid ≠ some u →
       applyMutation db ctx (Mutation.insertTimeEntry u et ip di la lo nt) =
         Except.error DbError.accessDenied ∧
       commit db (applyMutation db ctx (Mutation.insertTimeEntry u et ip di la lo nt)) = db) ∧
    (isAdmin db ctx.uid = true → ctx.uid ≠ some u →
       applyMutation db ctx (Mutation.insertTimeEntry u et ip di la lo nt) =
         Except.error DbError.accessDenied) := by
  have herr : ctx.uid ≠ some u →
      applyMutation db ctx (Mutation.insertTimeEntry u et ip di la lo nt) =
        Except.error DbError.accessDenied := by
    intro hu
    simp only [applyMutation, mutationStep]
    rw [if_neg hu]
  refine ⟨?_, ?_, ?_⟩
  · rintro ⟨dbr, hdbr⟩
    by_contra hu
    rw [herr hu] at hdbr
    exact Except.noConfusion hdbr
  · intro hu
    refine ⟨herr hu, ?_⟩
    rw [herr hu]
    rfl
  · intro _ hu
    exact herr hu

/-- Witness for C7 (Scenario D): the admin principal 1 attempts to insert a
time entry owned by principal 2 and is rejected with AccessDenied. -/
theorem time_entries_insert_self_only_witness :
    applyMutation exampleDB adminCtx
      (Mutation.insertTimeEntry 2 EntryType.clock_in (some "1.2.3.4") none none none none) =
      Except.error DbError.accessDenied :=
  ((time_entries_insert_self_only exampleDB adminCtx 2 EntryType.clock_in (some "1.2.3.4")
    none none none none).2.1 (by decide)).1

/-- C8: an admin INSERT of an ip already present in the whitelist fails with
a UniquenessViolation and leaves the store unchanged; and in every state
reachable by client statements from a seed state satisfying the whitelist
invariant (fresh distinct ids, distinct ips — e.g. the empty database), the
stored IP addresses are pairwise distinct. -/
theorem ip_whitelist_unique (db : DB) (ctx : ReqCtx) (ip : String) (desc : Option String) :
    (isAdmin db ctx.uid = true →
       (∃ e ∈ db.ip_whitelist, e.ip_address = ip) →
       applyMutation db ctx (Mutation.insertIpWhitelist ip desc) =
         Except.error DbError.uniquenessViolation ∧
       commit db (applyMutation db ctx (Mutation.insertIpWhitelist ip desc)) = db) ∧
    (∀ db0 dbr, IpwInv db0 → ReachableFrom db0 dbr → IpsDistinct dbr) := by
  constructor
  · intro hadmin hdup
    have hany : (db.ip_whitelist.any fun e => decide (e.ip_address = ip)) = true := by
      rcases hdup with ⟨e, he, hipe⟩
      exact List.any_eq_true.mpr ⟨e, he, by simp [hipe]⟩
    have herr : applyMutation db ctx (Mutation.insertIpWhitelist ip desc) =
        Except.error DbError.uniquenessViolation := by
      simp only [applyMutation, mutationStep]
      rw [if_pos hadmin, if_pos hany]
    refine ⟨herr, ?_⟩
    rw [herr]
    rfl
  · intro db0 dbr hinv hreach
    obtain ⟨ops, hops⟩ := hreach
    rw [← hops]
    exact (runOps_ipwInv ops db0 hinv).2.2

/-- Witness for C8: inserting the already-whitelisted "1.2.3.4" fails with a
UniquenessViolation, and the state reached from the example database by a
fresh admin insert of "9.9.9.9" has pairwise-distinct ips. -/
theorem ip_whitelist_unique_witness :
    applyMutation exampleDB adminCtx (Mutation.insertIpWhitelist "1.2.3.4" none) =
      Except.error DbError.uniquenessViolation ∧
    IpsDistinct (runOps exampleDB [(adminCtx, Mutation.insertIpWhitelist "9.9.9.9" none)]) := by
  have hinvEx : IpwInv exampleDB := by
    refine ⟨by decide, by decide, ?_⟩
    show exampleDB.ip_whitelist.Pairwise (fun a b => a.ip_address ≠ b.ip_address)
    decide
  constructor
  · exact ((ip_whitelist_unique exampleDB adminCtx "1.2.3.4" none).1 (by decide)
      ⟨ipEntry, by decide, by decide⟩).1
  · exact (ip_whitelist_unique exampleDB adminCtx "1.2.3.4" none).2 exampleDB
      (runOps exampleDB [(adminCtx, Mutation.insertIpWhitelist "9.9.9.9" none)])
      hinvEx ⟨[(adminCtx, Mutation.insertIpWhitelist "9.9.9.9" none)], rfl⟩
